import Mathlib

/-!
Macro-benchmark results: columnar projection and orchestration.

A shallow embedding of `go/tools/macrobench/results.go`.

Conventions of the embedding

* A Go slice is a `List`; the nil slice and the empty slice are both `[]`
  (`len`, `range` and `append` do not tell them apart). `append(s, x)` is
  `s ++ [x]`.
* A Go `map[string]V` is a `GoMap V`: an association list whose keys are
  pairwise distinct. The order of the entries is the order in which
  `for k, v := range m` visits them, which Go leaves unspecified; two
  association lists denote the same Go map when `GoMap.lookup` agrees on
  every key.
* A `float64` is carried by its IEEE-754 bit pattern. The code of this file
  only copies such values; it never computes with them.
* A Go function returning `(T, error)` returns a pair `T × Option Error`,
  `none` being the nil error.
* The SQL client is read-only for this code: it is embedded as the table of
  answers it gives, and every function that talks to it also returns the
  list of queries it issued, in order.
-/

namespace macrobench

/-- The bit pattern of a Go `float64`. -/
abbrev float64 := Nat

/-- A non-nil Go `error` value, carried by its message. -/
abbrev Error := String

/-- A Go `map[string]V`, its entries listed in iteration order. -/
abbrev GoMap (V : Type) := List (String × V)

namespace GoMap

/-- The comma-ok lookup: `v, ok := m[k]`. -/
def lookup {V : Type} : GoMap V → String → Option V
  | [], _ => none
  | (k', v) :: m, k => if k' = k then some v else lookup m k

/-- The plain index expression `m[k]`: the zero value when `k` is absent. -/
def index {V : Type} (zero : V) (m : GoMap V) (k : String) : V :=
  (lookup m k).getD zero

/-- The assignment `m[k] = v`: overwrite the entry of `k`, or add one. -/
def set {V : Type} : GoMap V → String → V → GoMap V
  | [], k, v => [(k, v)]
  | (k', v') :: m, k, v => if k' = k then (k, v) :: m else (k', v') :: set m k v

/-- The keys of the map, in iteration order. -/
def keys {V : Type} (m : GoMap V) : List String := m.map Prod.fst

/-- No key occurs twice: the list is a well-formed Go map. -/
def WF {V : Type} (m : GoMap V) : Prop := (keys m).Nodup

instance {V : Type} (m : GoMap V) : Decidable (WF m) := by
  unfold WF; infer_instance

end GoMap

/-- QPS represents the QPS table. -/
structure QPS where
  ID : Int
  RefID : Int
  Total : float64
  Reads : float64
  Writes : float64
  Other : float64
  deriving DecidableEq, Repr

/-- Result represents both OLTP and TPCC tables. -/
structure Result where
  ID : Int
  Queries : Int
  QPS : QPS
  TPS : float64
  Latency : float64
  Errors : float64
  Reconnects : float64
  Time : Int
  Threads : float64
  deriving DecidableEq, Repr

structure qpsAsSlice where
  total : List float64
  reads : List float64
  writes : List float64
  other : List float64
  deriving DecidableEq, Repr

structure metricsAsSlice where
  totalComponentsCPUTime : List float64
  componentsCPUTime : GoMap (List float64)
  totalComponentsMemStatsAllocBytes : List float64
  componentsMemStatsAllocBytes : GoMap (List float64)
  deriving DecidableEq, Repr

structure resultAsSlice where
  qps : qpsAsSlice
  tps : List float64
  latency : List float64
  errors : List float64
  reconnects : List float64
  time : List Int
  threads : List float64
  metrics : metricsAsSlice
  deriving DecidableEq, Repr

/-- Modelled from the spec: the declaration of `metrics.ExecutionMetrics`
(package `go/exec/metrics`) is not among the sources. A MetricsRecord holds
the total CPU time across components, a mapping from component name to CPU
time, the total allocated memory and a mapping from component name to
allocated memory; the field names are the ones `metricsToSlice` reads. -/
structure ExecutionMetrics where
  TotalComponentsCPUTime : float64
  ComponentsCPUTime : GoMap float64
  TotalComponentsMemStatsAllocBytes : float64
  ComponentsMemStatsAllocBytes : GoMap float64
  deriving DecidableEq, Repr

abbrev ExecutionMetricsArray := List ExecutionMetrics

/-- BenchmarkID identifies a macro benchmark; `CreatedAt` is a `*time.Time`,
`none` being the nil pointer and `some t` an instant in Unix nanoseconds. -/
structure BenchmarkID where
  ID : Int
  Source : String
  CreatedAt : Option Int
  ExecUUID : String
  deriving DecidableEq, Repr

/-- Details represents the entire macro benchmark; the embedded
`BenchmarkID` is the parent structure. -/
structure Details extends BenchmarkID where
  GitRef : String
  Result : Result
  Metrics : ExecutionMetrics
  deriving DecidableEq, Repr

abbrev ResultsArray := List Result
abbrev DetailsArray := List Details

structure BenchmarkResults where
  Results : ResultsArray
  Metrics : ExecutionMetricsArray
  deriving DecidableEq, Repr

/-- Modelled from the spec: the declaration of `PlannerVersion` is not among
the sources; the planner variant is a named configuration dimension, kept
opaque, here a string. -/
abbrev PlannerVersion := String

/-- The zero value `var s metricsAsSlice`, with the two maps made. -/
def metricsAsSlice.zero : metricsAsSlice :=
  { totalComponentsCPUTime := [], componentsCPUTime := [],
    totalComponentsMemStatsAllocBytes := [], componentsMemStatsAllocBytes := [] }

/-- The zero value `var ras resultAsSlice`. -/
def resultAsSlice.zero : resultAsSlice :=
  { qps := { total := [], reads := [], writes := [], other := [] },
    tps := [], latency := [], errors := [], reconnects := [], time := [], threads := [],
    metrics := metricsAsSlice.zero }

/-- The zero value `BenchmarkResults{}`. -/
def BenchmarkResults.zero : BenchmarkResults := { Results := [], Metrics := [] }

/-- One pass of the inner loops of `metricsToSlice`:
`m[name] = append(m[name], value)`. -/
def appendComponent (m : GoMap (List float64)) (entry : String × float64) :
    GoMap (List float64) :=
  GoMap.set m entry.1 (GoMap.index [] m entry.1 ++ [entry.2])

/-- The body of the outer loop of `metricsToSlice`, for one metric row. -/
def metricsToSliceStep (s : metricsAsSlice) (metricRow : ExecutionMetrics) : metricsAsSlice :=
  let s1 := { s with
    totalComponentsCPUTime := s.totalComponentsCPUTime ++ [metricRow.TotalComponentsCPUTime] }
  let s2 := { s1 with
    componentsCPUTime := metricRow.ComponentsCPUTime.foldl appendComponent s1.componentsCPUTime }
  let s3 := { s2 with
    totalComponentsMemStatsAllocBytes :=
      s2.totalComponentsMemStatsAllocBytes ++ [metricRow.TotalComponentsMemStatsAllocBytes] }
  { s3 with
    componentsMemStatsAllocBytes :=
      metricRow.ComponentsMemStatsAllocBytes.foldl appendComponent s3.componentsMemStatsAllocBytes }

def metricsToSlice (metrics : ExecutionMetricsArray) : metricsAsSlice :=
  metrics.foldl metricsToSliceStep metricsAsSlice.zero

/-- The body of the loop of `resultsArrayToSlice`, for one record. -/
def resultsArrayToSliceStep (ras : resultAsSlice) (mr : Result) : resultAsSlice :=
  { ras with
    qps := { total := ras.qps.total ++ [mr.QPS.Total],
             reads := ras.qps.reads ++ [mr.QPS.Reads],
             writes := ras.qps.writes ++ [mr.QPS.Writes],
             other := ras.qps.other ++ [mr.QPS.Other] },
    tps := ras.tps ++ [mr.TPS],
    latency := ras.latency ++ [mr.Latency],
    errors := ras.errors ++ [mr.Errors],
    reconnects := ras.reconnects ++ [mr.Reconnects],
    time := ras.time ++ [mr.Time],
    threads := ras.threads ++ [mr.Threads] }

def resultsArrayToSlice (mrs : ResultsArray) : resultAsSlice :=
  mrs.foldl resultsArrayToSliceStep resultAsSlice.zero

def BenchmarkResults.asSlice (br : BenchmarkResults) : resultAsSlice :=
  let s := resultsArrayToSlice br.Results
  { s with metrics := metricsToSlice br.Metrics }

/-- A query sent to the SQL client. -/
inductive Query where
  | results (macroType gitSHA : String) (planner : PlannerVersion)
  | resultsLastDays (macroType sha : String) (planner : PlannerVersion) (days : Int)
  | metrics (execUUID : String)
  deriving DecidableEq, Repr

/-- Modelled from the spec: `storage.SQLClient` and the three query functions
that take it (`getResultsForGitRefAndPlanner`, `GetResultsForLastDays`,
`metrics.GetExecutionMetricsSQL`) are not among the sources. The Store Adapter
fetches the ordered runs of a benchmark type, revision and planner variant,
optionally bounded by a window of days, or reports an error; the metrics
retrieval returns the record of an execution identifier, or reports an error.
The client is the table of the answers these functions give with it. -/
structure SQLClient where
  getResultsForGitRefAndPlanner : String → String → PlannerVersion → DetailsArray × Option Error
  GetResultsForLastDays : String → String → PlannerVersion → Int → DetailsArray × Option Error
  GetExecutionMetricsSQL : String → ExecutionMetrics × Option Error

/-- What a call that talks to the client comes back with: the returned value,
the returned error, and the queries it sent, in order. -/
structure Outcome (α : Type) where
  value : α
  err : Option Error
  queries : List Query
  deriving DecidableEq, Repr

/-- The loop shared, word for word, by `getBenchmarkResults` and
`getBenchmarkResultsLastXDays`: `br` is the value built so far and `qs` the
queries sent so far. -/
def collectRuns (client : SQLClient) :
    DetailsArray → BenchmarkResults → List Query → Outcome BenchmarkResults
  | [], br, qs => { value := br, err := none, queries := qs }
  | result :: results, br, qs =>
    let br1 : BenchmarkResults := { br with Results := br.Results ++ [result.Result] }
    let answer := client.GetExecutionMetricsSQL result.ExecUUID
    let qs1 := qs ++ [Query.metrics result.ExecUUID]
    match answer.2 with
    | some err => { value := BenchmarkResults.zero, err := some err, queries := qs1 }
    | none => collectRuns client results { br1 with Metrics := br1.Metrics ++ [answer.1] } qs1

def getBenchmarkResults (client : SQLClient) (macroType gitSHA : String)
    (planner : PlannerVersion) : Outcome BenchmarkResults :=
  let answer := client.getResultsForGitRefAndPlanner macroType gitSHA planner
  let qs := [Query.results macroType gitSHA planner]
  match answer.2 with
  | some err => { value := BenchmarkResults.zero, err := some err, queries := qs }
  | none =>
    if answer.1.length = 0 then
      { value := BenchmarkResults.zero, err := none, queries := qs }
    else
      collectRuns client answer.1 BenchmarkResults.zero qs

def getBenchmarkResultsLastXDays (client : SQLClient) (macroType sha : String)
    (planner : PlannerVersion) (days : Int) : Outcome BenchmarkResults :=
  let answer := client.GetResultsForLastDays macroType sha planner days
  let qs := [Query.resultsLastDays macroType sha planner days]
  match answer.2 with
  | some err => { value := BenchmarkResults.zero, err := some err, queries := qs }
  | none =>
    if answer.1.length = 0 then
      { value := BenchmarkResults.zero, err := none, queries := qs }
    else
      collectRuns client answer.1 BenchmarkResults.zero qs

/-- Modelled from the spec: the declaration of `StatisticalSingleResult` is not
among the sources. It is the bundle of one StatisticalSummary per dimension;
the fields are the ones `Search` assigns, and `S` is the type of a
StatisticalSummary, whose declaration is not among the sources either. -/
structure StatisticalSingleResult (S : Type) where
  TotalQPS : S
  ReadsQPS : S
  WritesQPS : S
  OtherQPS : S
  TPS : S
  Latency : S
  Errors : S
  TotalComponentsCPUTime : S
  ComponentsCPUTime : GoMap S
  TotalComponentsMemStatsAllocBytes : S
  ComponentsMemStatsAllocBytes : GoMap S
  deriving DecidableEq, Repr

/-- The loop `for name, value := range columns { m[name], _ = getSummary(value) }`
of `Search`, started on the empty map `map[string]StatisticalSummary{}`. -/
def summarizeComponents {S : Type} (getSummary : List float64 → S × Option Error)
    (columns : GoMap (List float64)) : GoMap S :=
  columns.foldl (fun m entry => GoMap.set m entry.1 (getSummary entry.2).1) []

/-- The bundle `ssr` that one pass of the loop of `Search` builds from the
projection; the error of every `getSummary` call is discarded (`_`). -/
def summarize {S : Type} (getSummary : List float64 → S × Option Error)
    (resultSlice : resultAsSlice) : StatisticalSingleResult S :=
  { TotalQPS := (getSummary resultSlice.qps.total).1,
    ReadsQPS := (getSummary resultSlice.qps.reads).1,
    WritesQPS := (getSummary resultSlice.qps.writes).1,
    OtherQPS := (getSummary resultSlice.qps.other).1,
    TPS := (getSummary resultSlice.tps).1,
    Latency := (getSummary resultSlice.latency).1,
    Errors := (getSummary resultSlice.errors).1,
    TotalComponentsCPUTime := (getSummary resultSlice.metrics.totalComponentsCPUTime).1,
    ComponentsCPUTime := summarizeComponents getSummary resultSlice.metrics.componentsCPUTime,
    TotalComponentsMemStatsAllocBytes :=
      (getSummary resultSlice.metrics.totalComponentsMemStatsAllocBytes).1,
    ComponentsMemStatsAllocBytes :=
      summarizeComponents getSummary resultSlice.metrics.componentsMemStatsAllocBytes }

/-- The loop of `Search` over the requested types: `results` is the map built
so far and `qs` the queries sent so far. The returned map is `none` for the
nil map. `getSummary` is a parameter: its code is not among the sources. -/
def searchLoop {S : Type} (getSummary : List float64 → S × Option Error)
    (client : SQLClient) (sha : String) (planner : PlannerVersion) :
    List String → GoMap (StatisticalSingleResult S) → List Query →
      Outcome (Option (GoMap (StatisticalSingleResult S)))
  | [], results, qs => { value := some results, err := none, queries := qs }
  | macroType :: types, results, qs =>
    let fetched := getBenchmarkResults client macroType sha planner
    match fetched.err with
    | some err => { value := none, err := some err, queries := qs ++ fetched.queries }
    | none =>
      let resultSlice := fetched.value.asSlice
      let ssr := summarize getSummary resultSlice
      searchLoop getSummary client sha planner types (GoMap.set results macroType ssr)
        (qs ++ fetched.queries)

def Search {S : Type} (getSummary : List float64 → S × Option Error)
    (client : SQLClient) (sha : String) (types : List String) (planner : PlannerVersion) :
    Outcome (Option (GoMap (StatisticalSingleResult S))) :=
  searchLoop getSummary client sha planner types [] []

/-- The loop of `Compare` over the requested types. `performAnalysis` is a
parameter: its code and the declaration of its result type `R`
(`StatisticalCompareResults`) are not among the sources. -/
def compareLoop {R : Type} (performAnalysis : resultAsSlice → resultAsSlice → R)
    (client : SQLClient) (old new : String) (planner : PlannerVersion) :
    List String → GoMap R → List Query → Outcome (Option (GoMap R))
  | [], results, qs => { value := some results, err := none, queries := qs }
  | macroType :: types, results, qs =>
    let left := getBenchmarkResults client macroType old planner
    match left.err with
    | some err => { value := none, err := some err, queries := qs ++ left.queries }
    | none =>
      let right := getBenchmarkResults client macroType new planner
      match right.err with
      | some err =>
        { value := none, err := some err, queries := qs ++ left.queries ++ right.queries }
      | none =>
        let leftResultsAsSlice := left.value.asSlice
        let rightResultsAsSlice := right.value.asSlice
        let scr := performAnalysis leftResultsAsSlice rightResultsAsSlice
        compareLoop performAnalysis client old new planner types (GoMap.set results macroType scr)
          (qs ++ left.queries ++ right.queries)

def Compare {R : Type} (performAnalysis : resultAsSlice → resultAsSlice → R)
    (client : SQLClient) (old new : String) (types : List String) (planner : PlannerVersion) :
    Outcome (Option (GoMap R)) :=
  compareLoop performAnalysis client old new planner types [] []

/-! ## Reference notions and sample inputs -/

/-- The values that the maps containing `k` hold for `k`, in order: a map
without `k` contributes nothing. -/
def componentColumn (k : String) (maps : List (GoMap float64)) : List float64 :=
  maps.filterMap (fun m => GoMap.lookup m k)

/-- The number of maps that contain the key `k`. -/
def rowsContaining (k : String) (maps : List (GoMap float64)) : Nat :=
  maps.countP (fun m => decide (k ∈ GoMap.keys m))

/-- Two records whose ten projected fields are pairwise distinct. -/
def sampleResults : ResultsArray :=
  [ { ID := 1, Queries := 10, QPS := { ID := 1, RefID := 1, Total := 11, Reads := 12, Writes := 13, Other := 14 },
      TPS := 15, Latency := 16, Errors := 17, Reconnects := 18, Time := 19, Threads := 20 },
    { ID := 2, Queries := 20, QPS := { ID := 2, RefID := 2, Total := 21, Reads := 22, Writes := 23, Other := 24 },
      TPS := 25, Latency := 26, Errors := 27, Reconnects := 28, Time := 29, Threads := 30 } ]

/-- Two metric rows that hold the same data, their maps possibly listing the
entries in a different order. -/
def sameUpToEntryOrder (a b : ExecutionMetrics) : Prop :=
  a.TotalComponentsCPUTime = b.TotalComponentsCPUTime ∧
  List.Perm a.ComponentsCPUTime b.ComponentsCPUTime ∧
  a.TotalComponentsMemStatsAllocBytes = b.TotalComponentsMemStatsAllocBytes ∧
  List.Perm a.ComponentsMemStatsAllocBytes b.ComponentsMemStatsAllocBytes

def sampleMetrics : ExecutionMetricsArray :=
  [ { TotalComponentsCPUTime := 10, ComponentsCPUTime := [("vtgate", 4), ("vttablet", 6)],
      TotalComponentsMemStatsAllocBytes := 100,
      ComponentsMemStatsAllocBytes := [("vtgate", 40), ("vttablet", 60)] },
    { TotalComponentsCPUTime := 5, ComponentsCPUTime := [("vtgate", 5)],
      TotalComponentsMemStatsAllocBytes := 50,
      ComponentsMemStatsAllocBytes := [("vtgate", 50)] },
    { TotalComponentsCPUTime := 9, ComponentsCPUTime := [("vttablet", 7), ("vtgate", 2)],
      TotalComponentsMemStatsAllocBytes := 90,
      ComponentsMemStatsAllocBytes := [("vttablet", 70), ("vtgate", 20)] } ]

def sampleMetricsReordered : ExecutionMetricsArray :=
  [ { TotalComponentsCPUTime := 10, ComponentsCPUTime := [("vttablet", 6), ("vtgate", 4)],
      TotalComponentsMemStatsAllocBytes := 100,
      ComponentsMemStatsAllocBytes := [("vttablet", 60), ("vtgate", 40)] },
    { TotalComponentsCPUTime := 5, ComponentsCPUTime := [("vtgate", 5)],
      TotalComponentsMemStatsAllocBytes := 50,
      ComponentsMemStatsAllocBytes := [("vtgate", 50)] },
    { TotalComponentsCPUTime := 9, ComponentsCPUTime := [("vtgate", 2), ("vttablet", 7)],
      TotalComponentsMemStatsAllocBytes := 90,
      ComponentsMemStatsAllocBytes := [("vttablet", 70), ("vtgate", 20)] } ]

/-- A result row whose projected fields all derive from `n`. -/
def sampleResult (n : Nat) : Result :=
  { ID := n, Queries := 100 * n,
    QPS := { ID := n, RefID := n, Total := 6 * n, Reads := 3 * n, Writes := 2 * n, Other := n },
    TPS := 10 * n, Latency := 7 * n, Errors := 0, Reconnects := 0, Time := 60, Threads := 8 }

/-- A metric row with the components vtgate and vttablet. -/
def sampleMetric (n : Nat) : ExecutionMetrics :=
  { TotalComponentsCPUTime := 3 * n, ComponentsCPUTime := [("vtgate", n), ("vttablet", 2 * n)],
    TotalComponentsMemStatsAllocBytes := 30 * n,
    ComponentsMemStatsAllocBytes := [("vtgate", 10 * n), ("vttablet", 20 * n)] }

/-- The zero value `ExecutionMetrics{}`. -/
def ExecutionMetrics.zero : ExecutionMetrics :=
  { TotalComponentsCPUTime := 0, ComponentsCPUTime := [],
    TotalComponentsMemStatsAllocBytes := 0, ComponentsMemStatsAllocBytes := [] }

/-- A run as the store returns it: the metrics field is not filled in. -/
def sampleRun (n : Nat) (execUUID : String) : Details :=
  { ID := n, Source := "cron", CreatedAt := none, ExecUUID := execUUID,
    GitRef := "f7304cd1", Result := sampleResult n, Metrics := ExecutionMetrics.zero }

/-- A store with two runs of "oltp", no run of "tpcc", three runs of
"oltp-set" the second of which has no recorded metrics, and an error for
every other benchmark type. -/
def sampleClient : SQLClient :=
  { getResultsForGitRefAndPlanner := fun macroType _ _ =>
      if macroType = "oltp" then ([sampleRun 1 "exec-1", sampleRun 2 "exec-2"], none)
      else if macroType = "tpcc" then ([], none)
      else if macroType = "oltp-set" then
        ([sampleRun 1 "exec-1", sampleRun 3 "exec-lost", sampleRun 2 "exec-2"], none)
      else ([], some "unknown benchmark type"),
    GetResultsForLastDays := fun _ _ _ _ => ([], none),
    GetExecutionMetricsSQL := fun execUUID =>
      if execUUID = "exec-1" then (sampleMetric 1, none)
      else if execUUID = "exec-2" then (sampleMetric 2, none)
      else (ExecutionMetrics.zero, some "no metrics for execution") }

/-- The bundle of a benchmark type without runs: every scalar summary is the
summary of the empty sequence and the per-component maps are empty. -/
def emptyBundle {S : Type} (getSummary : List float64 → S × Option Error) :
    StatisticalSingleResult S :=
  { TotalQPS := (getSummary []).1, ReadsQPS := (getSummary []).1,
    WritesQPS := (getSummary []).1, OtherQPS := (getSummary []).1,
    TPS := (getSummary []).1, Latency := (getSummary []).1, Errors := (getSummary []).1,
    TotalComponentsCPUTime := (getSummary []).1, ComponentsCPUTime := [],
    TotalComponentsMemStatsAllocBytes := (getSummary []).1, ComponentsMemStatsAllocBytes := [] }

/-- A summarizer that records the sample size and reports insufficient data
for fewer than two values. -/
def sampleSummary (values : List float64) : Nat × Option Error :=
  if values.length < 2 then (values.length, some "insufficient data") else (values.length, none)

/-- A comparison that records the sample sizes of the two TPS columns. -/
def sampleAnalysis (left right : resultAsSlice) : Nat × Nat :=
  (left.tps.length, right.tps.length)

/-- Two result rows with a single metric row: the lists are not aligned. -/
def misalignedResults : BenchmarkResults :=
  { Results := [sampleResult 1, sampleResult 2], Metrics := [sampleMetric 1] }

/-! ## Go maps -/

namespace GoMap

theorem lookup_set_self {V : Type} (m : GoMap V) (k : String) (v : V) :
    lookup (set m k v) k = some v := by
  induction m with
  | nil => simp [set, lookup]
  | cons e m ih =>
    obtain ⟨k', v'⟩ := e
    by_cases h : k' = k
    · simp [set, lookup, h]
    · simp [set, lookup, h, ih]

theorem lookup_set_ne {V : Type} (m : GoMap V) (k k' : String) (v : V) (h : k ≠ k') :
    lookup (set m k v) k' = lookup m k' := by
  induction m with
  | nil => simp [set, lookup, h]
  | cons e m ih =>
    obtain ⟨k1, v1⟩ := e
    by_cases h1 : k1 = k
    · subst h1; simp [set, lookup, h]
    · by_cases h2 : k1 = k'
      · subst h2; simp [set, lookup, h1]
      · simp [set, lookup, h1, h2, ih]

theorem keys_set {V : Type} (m : GoMap V) (k : String) (v : V) :
    keys (set m k v) = if k ∈ keys m then keys m else keys m ++ [k] := by
  induction m with
  | nil => simp [set, keys]
  | cons e m ih =>
    obtain ⟨k1, v1⟩ := e
    by_cases h1 : k1 = k
    · subst h1; simp [set, keys]
    · have h1' : ¬ k = k1 := fun h => h1 h.symm
      have ih' := ih
      simp only [keys] at ih'
      simp only [set, keys, h1, if_false, List.map_cons, List.mem_cons, h1', false_or, ih']
      split <;> simp

theorem mem_keys_set {V : Type} (m : GoMap V) (k k' : String) (v : V) :
    k' ∈ keys (set m k v) ↔ k' = k ∨ k' ∈ keys m := by
  rw [keys_set]
  split
  · constructor
    · intro h; exact Or.inr h
    · rintro (h | h)
      · subst h; assumption
      · exact h
  · simp [or_comm]

theorem WF_set {V : Type} (m : GoMap V) (k : String) (v : V) (h : WF m) : WF (set m k v) := by
  unfold WF at *
  rw [keys_set]
  split
  · exact h
  · rename_i hk
    exact List.Nodup.append h (List.nodup_singleton k) (by simpa using hk)

theorem lookup_eq_none_iff {V : Type} (m : GoMap V) (k : String) :
    lookup m k = none ↔ k ∉ keys m := by
  induction m with
  | nil => simp [lookup, keys]
  | cons e m ih =>
    obtain ⟨k1, v1⟩ := e
    by_cases h1 : k1 = k
    · simp [lookup, keys, h1]
    · have h1' : ¬ k = k1 := fun h => h1 h.symm
      simp only [keys] at ih
      simp [lookup, keys, h1, h1', ih]

theorem lookup_eq_some_iff {V : Type} (m : GoMap V) (h : WF m) (k : String) (v : V) :
    lookup m k = some v ↔ (k, v) ∈ m := by
  induction m with
  | nil => simp [lookup]
  | cons e m ih =>
    obtain ⟨k1, v1⟩ := e
    have hm : WF m := (List.nodup_cons.mp h).2
    have hk1 : k1 ∉ keys m := (List.nodup_cons.mp h).1
    by_cases h1 : k1 = k
    · subst h1
      have : ∀ v, (k1, v) ∉ m := by
        intro v hv
        exact hk1 (List.mem_map_of_mem Prod.fst hv)
      simp [lookup, this]
      constructor
      · intro h; exact h.symm
      · intro h; exact h.symm
    · have h1' : ¬ k = k1 := fun h => h1 h.symm
      simp [lookup, h1, h1', ih hm]

theorem lookup_perm {V : Type} (m m' : GoMap V) (h : WF m) (hp : List.Perm m m') (k : String) :
    lookup m k = lookup m' k := by
  have h' : WF m' := (List.Perm.nodup_iff (List.Perm.map Prod.fst hp)).mp h
  cases hg : lookup m' k with
  | none =>
    rw [lookup_eq_none_iff] at hg ⊢
    intro hk
    exact hg ((List.Perm.mem_iff (List.Perm.map Prod.fst hp)).mp hk)
  | some v =>
    rw [lookup_eq_some_iff m' h'] at hg
    rw [lookup_eq_some_iff m h]
    exact (List.Perm.mem_iff hp).mpr hg

end GoMap

/-! ## The projection of the result rows -/

/-- The loop of `resultsArrayToSlice`, started on any accumulator, appends to
every standard column the matching field of the records, in order. -/
theorem foldl_resultsArrayToSliceStep (mrs : ResultsArray) (ras : resultAsSlice) :
    mrs.foldl resultsArrayToSliceStep ras =
      { qps := { total := ras.qps.total ++ mrs.map (fun mr => mr.QPS.Total),
                 reads := ras.qps.reads ++ mrs.map (fun mr => mr.QPS.Reads),
                 writes := ras.qps.writes ++ mrs.map (fun mr => mr.QPS.Writes),
                 other := ras.qps.other ++ mrs.map (fun mr => mr.QPS.Other) },
        tps := ras.tps ++ mrs.map (fun mr => mr.TPS),
        latency := ras.latency ++ mrs.map (fun mr => mr.Latency),
        errors := ras.errors ++ mrs.map (fun mr => mr.Errors),
        reconnects := ras.reconnects ++ mrs.map (fun mr => mr.Reconnects),
        time := ras.time ++ mrs.map (fun mr => mr.Time),
        threads := ras.threads ++ mrs.map (fun mr => mr.Threads),
        metrics := ras.metrics } := by
  induction mrs generalizing ras with
  | nil => simp
  | cons mr mrs ih => simp [List.foldl_cons, ih, resultsArrayToSliceStep]

/-- Every standard column of `resultsArrayToSlice` is one field mapped over
the records. -/
theorem resultsArrayToSlice_eq_map (mrs : ResultsArray) :
    resultsArrayToSlice mrs =
      { qps := { total := mrs.map (fun mr => mr.QPS.Total),
                 reads := mrs.map (fun mr => mr.QPS.Reads),
                 writes := mrs.map (fun mr => mr.QPS.Writes),
                 other := mrs.map (fun mr => mr.QPS.Other) },
        tps := mrs.map (fun mr => mr.TPS),
        latency := mrs.map (fun mr => mr.Latency),
        errors := mrs.map (fun mr => mr.Errors),
        reconnects := mrs.map (fun mr => mr.Reconnects),
        time := mrs.map (fun mr => mr.Time),
        threads := mrs.map (fun mr => mr.Threads),
        metrics := metricsAsSlice.zero } := by
  unfold resultsArrayToSlice
  rw [foldl_resultsArrayToSliceStep]
  simp [resultAsSlice.zero]

/-- C1: for a ResultsArray of n records, each of the ten standard columns
produced by `resultsArrayToSlice` (qps.total, qps.reads, qps.writes,
qps.other, tps, latency, errors, reconnects, time, threads) has length n. -/
theorem resultsArrayToSlice_length (rs : ResultsArray) :
    (resultsArrayToSlice rs).qps.total.length = rs.length ∧
    (resultsArrayToSlice rs).qps.reads.length = rs.length ∧
    (resultsArrayToSlice rs).qps.writes.length = rs.length ∧
    (resultsArrayToSlice rs).qps.other.length = rs.length ∧
    (resultsArrayToSlice rs).tps.length = rs.length ∧
    (resultsArrayToSlice rs).latency.length = rs.length ∧
    (resultsArrayToSlice rs).errors.length = rs.length ∧
    (resultsArrayToSlice rs).reconnects.length = rs.length ∧
    (resultsArrayToSlice rs).time.length = rs.length ∧
    (resultsArrayToSlice rs).threads.length = rs.length := by
  rw [resultsArrayToSlice_eq_map]
  simp

/-- C2: for every index i below the number of records, the i-th entry of each
standard column produced by `resultsArrayToSlice` is the matching field of the
i-th record: the columns follow run order and no two fields are mixed. -/
theorem resultsArrayToSlice_getElem (rs : ResultsArray) (i : Nat) (h : i < rs.length) :
    (resultsArrayToSlice rs).qps.total[i]? = some rs[i].QPS.Total ∧
    (resultsArrayToSlice rs).qps.reads[i]? = some rs[i].QPS.Reads ∧
    (resultsArrayToSlice rs).qps.writes[i]? = some rs[i].QPS.Writes ∧
    (resultsArrayToSlice rs).qps.other[i]? = some rs[i].QPS.Other ∧
    (resultsArrayToSlice rs).tps[i]? = some rs[i].TPS ∧
    (resultsArrayToSlice rs).latency[i]? = some rs[i].Latency ∧
    (resultsArrayToSlice rs).errors[i]? = some rs[i].Errors ∧
    (resultsArrayToSlice rs).reconnects[i]? = some rs[i].Reconnects ∧
    (resultsArrayToSlice rs).time[i]? = some rs[i].Time ∧
    (resultsArrayToSlice rs).threads[i]? = some rs[i].Threads := by
  rw [resultsArrayToSlice_eq_map]
  simp [List.getElem?_map, List.getElem?_eq_getElem h]

/-- The second record of `sampleResults` is projected to the second entry of
each column. -/
theorem resultsArrayToSlice_getElem_witness :
    (resultsArrayToSlice sampleResults).qps.total[1]? = some 21 ∧
    (resultsArrayToSlice sampleResults).qps.reads[1]? = some 22 ∧
    (resultsArrayToSlice sampleResults).qps.writes[1]? = some 23 ∧
    (resultsArrayToSlice sampleResults).qps.other[1]? = some 24 ∧
    (resultsArrayToSlice sampleResults).tps[1]? = some 25 ∧
    (resultsArrayToSlice sampleResults).latency[1]? = some 26 ∧
    (resultsArrayToSlice sampleResults).errors[1]? = some 27 ∧
    (resultsArrayToSlice sampleResults).reconnects[1]? = some 28 ∧
    (resultsArrayToSlice sampleResults).time[1]? = some 29 ∧
    (resultsArrayToSlice sampleResults).threads[1]? = some 30 :=
  resultsArrayToSlice_getElem sampleResults 1 (by decide)

/-! ## The projection of the metric rows -/

/-- One inner loop of `metricsToSlice` over a well-formed row map: the
sequence of `k` grows by the row's value for `k`, if the row has one. -/
theorem lookup_foldl_appendComponent (row : GoMap float64) (hrow : GoMap.WF row)
    (m : GoMap (List float64)) (k : String) :
    GoMap.lookup (row.foldl appendComponent m) k =
      match GoMap.lookup row k with
      | none => GoMap.lookup m k
      | some v => some (GoMap.index [] m k ++ [v]) := by
  induction row generalizing m with
  | nil => simp [GoMap.lookup]
  | cons e row ih =>
    obtain ⟨k1, v1⟩ := e
    have hrest : GoMap.WF row := (List.nodup_cons.mp hrow).2
    have hk1 : k1 ∉ GoMap.keys row := (List.nodup_cons.mp hrow).1
    rw [List.foldl_cons, ih hrest]
    by_cases h : k1 = k
    · subst h
      have hnone : GoMap.lookup row k1 = none := (GoMap.lookup_eq_none_iff row k1).mpr hk1
      simp [hnone, GoMap.lookup, appendComponent, GoMap.lookup_set_self]
    · have hg : GoMap.lookup (appendComponent m (k1, v1)) k = GoMap.lookup m k := by
        simp [appendComponent, GoMap.lookup_set_ne _ _ _ _ h]
      simp [GoMap.lookup, h, GoMap.index, hg]

/-- The keys after one inner loop: the old keys and the keys of the row. -/
theorem mem_keys_foldl_appendComponent (row : GoMap float64) (m : GoMap (List float64))
    (k : String) :
    k ∈ GoMap.keys (row.foldl appendComponent m) ↔ k ∈ GoMap.keys m ∨ k ∈ GoMap.keys row := by
  induction row generalizing m with
  | nil => simp [GoMap.keys]
  | cons e row ih =>
    obtain ⟨k1, v1⟩ := e
    rw [List.foldl_cons, ih]
    simp only [appendComponent, GoMap.mem_keys_set]
    simp only [GoMap.keys, List.map_cons, List.mem_cons]
    tauto

/-- The inner loops keep the accumulated map well formed. -/
theorem WF_foldl_appendComponent (row : GoMap float64) (m : GoMap (List float64))
    (h : GoMap.WF m) : GoMap.WF (row.foldl appendComponent m) := by
  induction row generalizing m with
  | nil => simpa using h
  | cons e row ih =>
    rw [List.foldl_cons]
    exact ih _ (GoMap.WF_set _ _ _ h)

/-- The accumulation of one family of row maps, started on any map `m`. -/
theorem lookup_foldl_rows (maps : List (GoMap float64)) (hwf : ∀ row ∈ maps, GoMap.WF row)
    (m : GoMap (List float64)) (k : String) :
    GoMap.lookup (maps.foldl (fun acc row => row.foldl appendComponent acc) m) k =
      if componentColumn k maps = [] then GoMap.lookup m k
      else some (GoMap.index [] m k ++ componentColumn k maps) := by
  induction maps generalizing m with
  | nil => simp [componentColumn]
  | cons row maps ih =>
    have hrow : GoMap.WF row := hwf row (List.mem_cons_self _ _)
    have hrest : ∀ r ∈ maps, GoMap.WF r := fun r hr => hwf r (List.mem_cons_of_mem _ hr)
    rw [List.foldl_cons, ih hrest]
    have hone := lookup_foldl_appendComponent row hrow m k
    cases hg : GoMap.lookup row k with
    | none =>
      rw [hg] at hone
      simp [componentColumn, hg] at hone ⊢
      simp [GoMap.index, hone]
    | some v =>
      rw [hg] at hone
      simp only [componentColumn, List.filterMap_cons, hg] at hone ⊢
      simp [GoMap.index, hone]

/-- The component maps and total columns of the loop of `metricsToSlice`,
started on any accumulator. -/
theorem foldl_metricsToSliceStep (metrics : ExecutionMetricsArray) (s : metricsAsSlice) :
    metrics.foldl metricsToSliceStep s =
      { totalComponentsCPUTime :=
          s.totalComponentsCPUTime ++ metrics.map (fun r => r.TotalComponentsCPUTime),
        componentsCPUTime :=
          (metrics.map (fun r => r.ComponentsCPUTime)).foldl
            (fun acc row => row.foldl appendComponent acc) s.componentsCPUTime,
        totalComponentsMemStatsAllocBytes :=
          s.totalComponentsMemStatsAllocBytes ++
            metrics.map (fun r => r.TotalComponentsMemStatsAllocBytes),
        componentsMemStatsAllocBytes :=
          (metrics.map (fun r => r.ComponentsMemStatsAllocBytes)).foldl
            (fun acc row => row.foldl appendComponent acc) s.componentsMemStatsAllocBytes } := by
  induction metrics generalizing s with
  | nil => simp
  | cons r metrics ih => simp [List.foldl_cons, ih, metricsToSliceStep]

theorem componentColumn_eq_nil_iff (k : String) (maps : List (GoMap float64)) :
    componentColumn k maps = [] ↔ ¬ ∃ row ∈ maps, k ∈ GoMap.keys row := by
  induction maps with
  | nil => simp [componentColumn]
  | cons row maps ih =>
    simp only [componentColumn] at ih
    cases hg : GoMap.lookup row k with
    | none =>
      have hk : k ∉ GoMap.keys row := (GoMap.lookup_eq_none_iff row k).mp hg
      simp [componentColumn, List.filterMap_cons, hg, ih, hk]
    | some v =>
      have hk : k ∈ GoMap.keys row := by
        by_contra hk
        rw [(GoMap.lookup_eq_none_iff row k).mpr hk] at hg
        exact Option.noConfusion hg
      simp [componentColumn, List.filterMap_cons, hg, hk]

theorem length_componentColumn (k : String) (maps : List (GoMap float64)) :
    (componentColumn k maps).length = rowsContaining k maps := by
  induction maps with
  | nil => simp [componentColumn, rowsContaining]
  | cons row maps ih =>
    simp only [componentColumn, rowsContaining] at ih
    cases hg : GoMap.lookup row k with
    | none =>
      have hk : k ∉ GoMap.keys row := (GoMap.lookup_eq_none_iff row k).mp hg
      simp [componentColumn, rowsContaining, List.filterMap_cons, hg, ih, hk, List.countP_cons]
    | some v =>
      have hk : k ∈ GoMap.keys row := by
        by_contra hk
        rw [(GoMap.lookup_eq_none_iff row k).mpr hk] at hg
        exact Option.noConfusion hg
      simp [componentColumn, rowsContaining, List.filterMap_cons, hg, ih, hk, List.countP_cons]

/-- What the accumulation of one family of well-formed row maps, started on
the empty map, stores under `k`. -/
theorem lookup_foldl_rows_nil (maps : List (GoMap float64)) (hwf : ∀ row ∈ maps, GoMap.WF row)
    (k : String) :
    GoMap.lookup (maps.foldl (fun acc row => row.foldl appendComponent acc) []) k =
      if componentColumn k maps = [] then none else some (componentColumn k maps) := by
  rw [lookup_foldl_rows maps hwf]
  simp [GoMap.lookup, GoMap.index]

theorem componentColumn_perm (k : String) (ms ms' : ExecutionMetricsArray)
    (proj : ExecutionMetrics → GoMap float64)
    (hwf : ∀ r ∈ ms, GoMap.WF (proj r))
    (h : List.Forall₂ (fun a b => List.Perm (proj a) (proj b)) ms ms') :
    componentColumn k (ms.map proj) = componentColumn k (ms'.map proj) := by
  induction h with
  | nil => rfl
  | @cons a b l l' hab _ ih =>
    have ha : GoMap.WF (proj a) := hwf a (List.mem_cons_self _ _)
    have hg := GoMap.lookup_perm (proj a) (proj b) ha hab k
    have ih' := ih (fun r hr => hwf r (List.mem_cons_of_mem _ hr))
    simp only [componentColumn] at ih' ⊢
    simp only [List.map_cons, List.filterMap_cons, hg, ih']

theorem WF_of_perm_rows (ms ms' : ExecutionMetricsArray)
    (proj : ExecutionMetrics → GoMap float64)
    (hwf : ∀ r ∈ ms, GoMap.WF (proj r))
    (h : List.Forall₂ (fun a b => List.Perm (proj a) (proj b)) ms ms') :
    ∀ r ∈ ms', GoMap.WF (proj r) := by
  induction h with
  | nil => simp
  | @cons a b l l' hab _ ih =>
    intro r hr
    rcases List.mem_cons.mp hr with h1 | h1
    · subst h1
      exact (List.Perm.nodup_iff (List.Perm.map Prod.fst hab)).mp (hwf a (List.mem_cons_self _ _))
    · exact ih (fun r hr => hwf r (List.mem_cons_of_mem _ hr)) r h1

/-- C3: for metric rows whose maps are well-formed Go maps and every component
name k, the sequence `metricsToSlice` stores under k in `componentsCPUTime`
(and likewise in `componentsMemStatsAllocBytes`) is the list of the values the
rows containing k hold for k, in run order; a row lacking k adds nothing, so
the length is the number of rows containing k, and k is a key of the result
map exactly when some row contains k. -/
theorem metricsToSlice_components (metrics : ExecutionMetricsArray) (k : String)
    (hwf : ∀ r ∈ metrics,
      GoMap.WF r.ComponentsCPUTime ∧ GoMap.WF r.ComponentsMemStatsAllocBytes) :
    ((∃ r ∈ metrics, k ∈ GoMap.keys r.ComponentsCPUTime) →
      GoMap.lookup (metricsToSlice metrics).componentsCPUTime k =
        some (componentColumn k (metrics.map (fun r => r.ComponentsCPUTime)))) ∧
    ((¬ ∃ r ∈ metrics, k ∈ GoMap.keys r.ComponentsCPUTime) →
      GoMap.lookup (metricsToSlice metrics).componentsCPUTime k = none) ∧
    (componentColumn k (metrics.map (fun r => r.ComponentsCPUTime))).length =
      rowsContaining k (metrics.map (fun r => r.ComponentsCPUTime)) ∧
    (k ∈ GoMap.keys (metricsToSlice metrics).componentsCPUTime ↔
      ∃ r ∈ metrics, k ∈ GoMap.keys r.ComponentsCPUTime) ∧
    ((∃ r ∈ metrics, k ∈ GoMap.keys r.ComponentsMemStatsAllocBytes) →
      GoMap.lookup (metricsToSlice metrics).componentsMemStatsAllocBytes k =
        some (componentColumn k (metrics.map (fun r => r.ComponentsMemStatsAllocBytes)))) ∧
    ((¬ ∃ r ∈ metrics, k ∈ GoMap.keys r.ComponentsMemStatsAllocBytes) →
      GoMap.lookup (metricsToSlice metrics).componentsMemStatsAllocBytes k = none) ∧
    (componentColumn k (metrics.map (fun r => r.ComponentsMemStatsAllocBytes))).length =
      rowsContaining k (metrics.map (fun r => r.ComponentsMemStatsAllocBytes)) ∧
    (k ∈ GoMap.keys (metricsToSlice metrics).componentsMemStatsAllocBytes ↔
      ∃ r ∈ metrics, k ∈ GoMap.keys r.ComponentsMemStatsAllocBytes) := by
  have hcpu : ∀ row ∈ metrics.map (fun r => r.ComponentsCPUTime), GoMap.WF row := by
    intro row hrow
    obtain ⟨r, hr, rfl⟩ := List.mem_map.mp hrow
    exact (hwf r hr).1
  have hmem : ∀ row ∈ metrics.map (fun r => r.ComponentsMemStatsAllocBytes), GoMap.WF row := by
    intro row hrow
    obtain ⟨r, hr, rfl⟩ := List.mem_map.mp hrow
    exact (hwf r hr).2
  have e1 := lookup_foldl_rows_nil _ hcpu k
  have e2 := lookup_foldl_rows_nil _ hmem k
  have n1 := componentColumn_eq_nil_iff k (metrics.map (fun r => r.ComponentsCPUTime))
  have n2 := componentColumn_eq_nil_iff k (metrics.map (fun r => r.ComponentsMemStatsAllocBytes))
  have x1 : (∃ row ∈ metrics.map (fun r => r.ComponentsCPUTime), k ∈ GoMap.keys row) ↔
      ∃ r ∈ metrics, k ∈ GoMap.keys r.ComponentsCPUTime := by simp
  have x2 : (∃ row ∈ metrics.map (fun r => r.ComponentsMemStatsAllocBytes), k ∈ GoMap.keys row) ↔
      ∃ r ∈ metrics, k ∈ GoMap.keys r.ComponentsMemStatsAllocBytes := by simp
  rw [x1] at n1
  rw [x2] at n2
  unfold metricsToSlice
  rw [foldl_metricsToSliceStep]
  simp only [metricsAsSlice.zero]
  refine ⟨?_, ?_, length_componentColumn _ _, ?_, ?_, ?_, length_componentColumn _ _, ?_⟩
  · intro h
    rw [e1, if_neg (fun hnil => (n1.mp hnil) h)]
  · intro h
    rw [e1, if_pos (n1.mpr h)]
  · rw [← not_iff_not, ← GoMap.lookup_eq_none_iff, e1, ← n1]
    split <;> simp_all
  · intro h
    rw [e2, if_neg (fun hnil => (n2.mp hnil) h)]
  · intro h
    rw [e2, if_pos (n2.mpr h)]
  · rw [← not_iff_not, ← GoMap.lookup_eq_none_iff, e2, ← n2]
    split <;> simp_all

/-- In `sampleMetrics` the component vttablet is absent from the second of the
three rows: its CPU sequence is `[6, 7]`, of length 2, with no zero inserted. -/
theorem metricsToSlice_components_witness :
    GoMap.lookup (metricsToSlice sampleMetrics).componentsCPUTime "vttablet" = some [6, 7] ∧
    rowsContaining "vttablet" (sampleMetrics.map (fun r => r.ComponentsCPUTime)) = 2 :=
  have h := metricsToSlice_components sampleMetrics "vttablet" (by decide)
  ⟨(h.1 ⟨_, List.mem_cons_self _ _, by decide⟩).trans (by decide), by decide⟩

/-- C10: `metricsToSlice` does not depend on the order in which the entries of
the rows' maps are visited: two lists of rows that agree row by row up to the
order of the entries of `ComponentsCPUTime` and `ComponentsMemStatsAllocBytes`
give the same two total columns and, for every component name, the same
sequence in each per-component map, hence the same key sets. -/
theorem metricsToSlice_order_independent (metrics metrics' : ExecutionMetricsArray)
    (hwf : ∀ r ∈ metrics,
      GoMap.WF r.ComponentsCPUTime ∧ GoMap.WF r.ComponentsMemStatsAllocBytes)
    (h : List.Forall₂ sameUpToEntryOrder metrics metrics') :
    (metricsToSlice metrics).totalComponentsCPUTime =
      (metricsToSlice metrics').totalComponentsCPUTime ∧
    (metricsToSlice metrics).totalComponentsMemStatsAllocBytes =
      (metricsToSlice metrics').totalComponentsMemStatsAllocBytes ∧
    (∀ k, GoMap.lookup (metricsToSlice metrics).componentsCPUTime k =
      GoMap.lookup (metricsToSlice metrics').componentsCPUTime k) ∧
    (∀ k, GoMap.lookup (metricsToSlice metrics).componentsMemStatsAllocBytes k =
      GoMap.lookup (metricsToSlice metrics').componentsMemStatsAllocBytes k) ∧
    (∀ k, k ∈ GoMap.keys (metricsToSlice metrics).componentsCPUTime ↔
      k ∈ GoMap.keys (metricsToSlice metrics').componentsCPUTime) ∧
    (∀ k, k ∈ GoMap.keys (metricsToSlice metrics).componentsMemStatsAllocBytes ↔
      k ∈ GoMap.keys (metricsToSlice metrics').componentsMemStatsAllocBytes) := by
  have hc : List.Forall₂ (fun a b => List.Perm a.ComponentsCPUTime b.ComponentsCPUTime)
      metrics metrics' := List.Forall₂.imp (fun _ _ hab => hab.2.1) h
  have hm : List.Forall₂
      (fun a b => List.Perm a.ComponentsMemStatsAllocBytes b.ComponentsMemStatsAllocBytes)
      metrics metrics' := List.Forall₂.imp (fun _ _ hab => hab.2.2.2) h
  have ht1 : metrics.map (fun r => r.TotalComponentsCPUTime) =
      metrics'.map (fun r => r.TotalComponentsCPUTime) := by
    clear hc hm hwf
    induction h with
    | nil => rfl
    | cons hab _ ih => simp [hab.1, ih]
  have ht2 : metrics.map (fun r => r.TotalComponentsMemStatsAllocBytes) =
      metrics'.map (fun r => r.TotalComponentsMemStatsAllocBytes) := by
    clear hc hm hwf ht1
    induction h with
    | nil => rfl
    | cons hab _ ih => simp [hab.2.2.1, ih]
  have w1 : ∀ r ∈ metrics, GoMap.WF r.ComponentsCPUTime := fun r hr => (hwf r hr).1
  have w2 : ∀ r ∈ metrics, GoMap.WF r.ComponentsMemStatsAllocBytes := fun r hr => (hwf r hr).2
  have w1' := WF_of_perm_rows metrics metrics' (fun r => r.ComponentsCPUTime) w1 hc
  have w2' := WF_of_perm_rows metrics metrics' (fun r => r.ComponentsMemStatsAllocBytes) w2 hm
  have g1 : ∀ k, GoMap.lookup (metricsToSlice metrics).componentsCPUTime k =
      GoMap.lookup (metricsToSlice metrics').componentsCPUTime k := by
    intro k
    unfold metricsToSlice
    rw [foldl_metricsToSliceStep, foldl_metricsToSliceStep]
    simp only [metricsAsSlice.zero]
    rw [lookup_foldl_rows_nil _ (by simpa using w1), lookup_foldl_rows_nil _ (by simpa using w1'),
      componentColumn_perm k metrics metrics' (fun r => r.ComponentsCPUTime) w1 hc]
  have g2 : ∀ k, GoMap.lookup (metricsToSlice metrics).componentsMemStatsAllocBytes k =
      GoMap.lookup (metricsToSlice metrics').componentsMemStatsAllocBytes k := by
    intro k
    unfold metricsToSlice
    rw [foldl_metricsToSliceStep, foldl_metricsToSliceStep]
    simp only [metricsAsSlice.zero]
    rw [lookup_foldl_rows_nil _ (by simpa using w2), lookup_foldl_rows_nil _ (by simpa using w2'),
      componentColumn_perm k metrics metrics' (fun r => r.ComponentsMemStatsAllocBytes) w2 hm]
  refine ⟨?_, ?_, g1, g2, ?_, ?_⟩
  · unfold metricsToSlice
    rw [foldl_metricsToSliceStep, foldl_metricsToSliceStep]
    simp [metricsAsSlice.zero, ht1]
  · unfold metricsToSlice
    rw [foldl_metricsToSliceStep, foldl_metricsToSliceStep]
    simp [metricsAsSlice.zero, ht2]
  · intro k
    rw [← not_iff_not, ← GoMap.lookup_eq_none_iff, ← GoMap.lookup_eq_none_iff, g1 k]
  · intro k
    rw [← not_iff_not, ← GoMap.lookup_eq_none_iff, ← GoMap.lookup_eq_none_iff, g2 k]

/-- The rows of `sampleMetricsReordered` are those of `sampleMetrics` with
the entries of some maps swapped; both give the same sequence for vtgate. -/
theorem metricsToSlice_order_independent_witness :
    GoMap.lookup (metricsToSlice sampleMetrics).componentsCPUTime "vtgate" =
      GoMap.lookup (metricsToSlice sampleMetricsReordered).componentsCPUTime "vtgate" :=
  (metricsToSlice_order_independent sampleMetrics sampleMetricsReordered (by decide)
    (List.Forall₂.cons ⟨rfl, List.Perm.swap _ _ _, rfl, List.Perm.swap _ _ _⟩
      (List.Forall₂.cons ⟨rfl, List.Perm.refl _, rfl, List.Perm.refl _⟩
        (List.Forall₂.cons ⟨rfl, List.Perm.swap _ _ _, rfl, List.Perm.refl _⟩
          List.Forall₂.nil)))).2.2.1 "vtgate"

/-! ## Fetching the runs of one benchmark type -/

/-- A list with an element satisfying `p` splits at the first such element. -/
theorem exists_first_split {α : Type} (p : α → Prop) (l : List α) (h : ∃ x ∈ l, p x) :
    ∃ pre x post, l = pre ++ x :: post ∧ (∀ y ∈ pre, ¬ p y) ∧ p x := by
  induction l with
  | nil => simp at h
  | cons a l ih =>
    by_cases ha : p a
    · exact ⟨[], a, l, rfl, by simp, ha⟩
    · have h' : ∃ x ∈ l, p x := by
        obtain ⟨x, hx, hpx⟩ := h
        rcases List.mem_cons.mp hx with rfl | hx
        · exact absurd hpx ha
        · exact ⟨x, hx, hpx⟩
      obtain ⟨pre, x, post, hl, hpre, hx⟩ := ih h'
      refine ⟨a :: pre, x, post, by simp [hl], ?_, hx⟩
      intro y hy
      rcases List.mem_cons.mp hy with rfl | hy
      · exact ha
      · exact hpre y hy

/-- The loop of `getBenchmarkResults` when every metrics lookup succeeds. -/
theorem collectRuns_ok (client : SQLClient) (runs : DetailsArray) (br : BenchmarkResults)
    (qs : List Query)
    (h : ∀ r ∈ runs, (client.GetExecutionMetricsSQL r.ExecUUID).2 = none) :
    collectRuns client runs br qs =
      { value :=
          { Results := br.Results ++ runs.map (fun r => r.Result),
            Metrics := br.Metrics ++ runs.map (fun r => (client.GetExecutionMetricsSQL r.ExecUUID).1) },
        err := none,
        queries := qs ++ runs.map (fun r => Query.metrics r.ExecUUID) } := by
  induction runs generalizing br qs with
  | nil => simp [collectRuns]
  | cons r runs ih =>
    have hr : (client.GetExecutionMetricsSQL r.ExecUUID).2 = none := h r (List.mem_cons_self _ _)
    have hrest : ∀ x ∈ runs, (client.GetExecutionMetricsSQL x.ExecUUID).2 = none :=
      fun x hx => h x (List.mem_cons_of_mem _ hx)
    simp [collectRuns, hr, ih _ _ hrest]

/-- The loop of `getBenchmarkResults` when a metrics lookup fails: the first
failure ends the loop with its error and the zero value. -/
theorem collectRuns_fail (client : SQLClient) (pre : DetailsArray) (r : Details)
    (post : DetailsArray) (e : Error) (br : BenchmarkResults) (qs : List Query)
    (hpre : ∀ x ∈ pre, (client.GetExecutionMetricsSQL x.ExecUUID).2 = none)
    (hr : (client.GetExecutionMetricsSQL r.ExecUUID).2 = some e) :
    collectRuns client (pre ++ r :: post) br qs =
      { value := BenchmarkResults.zero, err := some e,
        queries := qs ++ (pre ++ [r]).map (fun x => Query.metrics x.ExecUUID) } := by
  induction pre generalizing br qs with
  | nil => simp [collectRuns, hr]
  | cons a pre ih =>
    have ha : (client.GetExecutionMetricsSQL a.ExecUUID).2 = none := hpre a (List.mem_cons_self _ _)
    have hrest : ∀ x ∈ pre, (client.GetExecutionMetricsSQL x.ExecUUID).2 = none :=
      fun x hx => hpre x (List.mem_cons_of_mem _ hx)
    simp [collectRuns, ha, ih _ _ hrest]

/-- Whatever the loop of `getBenchmarkResults` returns, aligned lists stay
aligned. -/
theorem collectRuns_aligned (client : SQLClient) (runs : DetailsArray) (br : BenchmarkResults)
    (qs : List Query) (h : br.Results.length = br.Metrics.length) :
    (collectRuns client runs br qs).value.Results.length =
      (collectRuns client runs br qs).value.Metrics.length := by
  induction runs generalizing br qs with
  | nil => simpa [collectRuns] using h
  | cons r runs ih =>
    cases hr : (client.GetExecutionMetricsSQL r.ExecUUID).2 with
    | some e => simp [collectRuns, hr, BenchmarkResults.zero]
    | none =>
      simp only [collectRuns, hr]
      exact ih _ _ (by simp [h])

/-- The outcome of `getBenchmarkResults` when the store returns `runs` and
every metrics lookup succeeds. -/
theorem getBenchmarkResults_ok (client : SQLClient) (macroType gitSHA : String)
    (planner : PlannerVersion) (runs : DetailsArray)
    (hruns : client.getResultsForGitRefAndPlanner macroType gitSHA planner = (runs, none))
    (h : ∀ r ∈ runs, (client.GetExecutionMetricsSQL r.ExecUUID).2 = none) :
    getBenchmarkResults client macroType gitSHA planner =
      { value :=
          { Results := runs.map (fun r => r.Result),
            Metrics := runs.map (fun r => (client.GetExecutionMetricsSQL r.ExecUUID).1) },
        err := none,
        queries := Query.results macroType gitSHA planner ::
          runs.map (fun r => Query.metrics r.ExecUUID) } := by
  unfold getBenchmarkResults
  simp only [hruns]
  cases runs with
  | nil => simp [BenchmarkResults.zero]
  | cons r runs => simp [collectRuns_ok client (r :: runs) _ _ h, BenchmarkResults.zero]

/-- The store's own error is returned unchanged, with the zero value and no
metrics lookup. -/
theorem getBenchmarkResults_store_error (client : SQLClient) (macroType gitSHA : String)
    (planner : PlannerVersion) (e : Error)
    (hruns : (client.getResultsForGitRefAndPlanner macroType gitSHA planner).2 = some e) :
    getBenchmarkResults client macroType gitSHA planner =
      { value := BenchmarkResults.zero, err := some e,
        queries := [Query.results macroType gitSHA planner] } := by
  unfold getBenchmarkResults
  simp [hruns]

/-- The two lists of any value returned by `getBenchmarkResults` have the
same length. -/
theorem getBenchmarkResults_same_length (client : SQLClient) (macroType gitSHA : String)
    (planner : PlannerVersion) :
    (getBenchmarkResults client macroType gitSHA planner).value.Results.length =
      (getBenchmarkResults client macroType gitSHA planner).value.Metrics.length := by
  unfold getBenchmarkResults
  cases he : (client.getResultsForGitRefAndPlanner macroType gitSHA planner).2 with
  | some e => simp [he, BenchmarkResults.zero]
  | none =>
    simp only [he]
    split
    · simp [BenchmarkResults.zero]
    · exact collectRuns_aligned client _ _ _ (by simp [BenchmarkResults.zero])

/-- C9: when the store returns n runs and the metrics lookup of every run
succeeds, `getBenchmarkResults` returns no error and a value whose `Results`
and `Metrics` both have length n; for every i below n, `Results[i]` is the
Result of the i-th run and `Metrics[i]` is the record looked up with the
ExecUUID of the i-th run. -/
theorem getBenchmarkResults_parallel (client : SQLClient) (macroType gitSHA : String)
    (planner : PlannerVersion) (runs : DetailsArray)
    (hruns : client.getResultsForGitRefAndPlanner macroType gitSHA planner = (runs, none))
    (hmetrics : ∀ r ∈ runs, (client.GetExecutionMetricsSQL r.ExecUUID).2 = none) :
    (getBenchmarkResults client macroType gitSHA planner).err = none ∧
    (getBenchmarkResults client macroType gitSHA planner).value.Results.length = runs.length ∧
    (getBenchmarkResults client macroType gitSHA planner).value.Metrics.length = runs.length ∧
    ∀ (i : Nat) (hi : i < runs.length),
      (getBenchmarkResults client macroType gitSHA planner).value.Results[i]? =
        some runs[i].Result ∧
      (getBenchmarkResults client macroType gitSHA planner).value.Metrics[i]? =
        some (client.GetExecutionMetricsSQL runs[i].ExecUUID).1 := by
  rw [getBenchmarkResults_ok client macroType gitSHA planner runs hruns hmetrics]
  refine ⟨rfl, by simp, by simp, ?_⟩
  intro i hi
  simp [List.getElem?_map, List.getElem?_eq_getElem hi]

/-- The two runs of "oltp" in `sampleClient` come back with their metrics, in
order. -/
theorem getBenchmarkResults_parallel_witness :
    (getBenchmarkResults sampleClient "oltp" "f7304cd1" "Gen4").err = none ∧
    (getBenchmarkResults sampleClient "oltp" "f7304cd1" "Gen4").value.Results.length = 2 ∧
    (getBenchmarkResults sampleClient "oltp" "f7304cd1" "Gen4").value.Metrics.length = 2 ∧
    (getBenchmarkResults sampleClient "oltp" "f7304cd1" "Gen4").value.Results[1]? =
      some (sampleResult 2) ∧
    (getBenchmarkResults sampleClient "oltp" "f7304cd1" "Gen4").value.Metrics[1]? =
      some (sampleMetric 2) :=
  have h := getBenchmarkResults_parallel sampleClient "oltp" "f7304cd1" "Gen4"
    [sampleRun 1 "exec-1", sampleRun 2 "exec-2"] rfl (by decide)
  ⟨h.1, h.2.1, h.2.2.1, (h.2.2.2 1 (by decide)).1, (h.2.2.2 1 (by decide)).2⟩

/-- The loop of `getBenchmarkResultsLastXDays` is the same: when the store
returns `runs` and every metrics lookup succeeds, the value holds the Results
of the runs and the records looked up, in run order. -/
theorem getBenchmarkResultsLastXDays_ok (client : SQLClient) (macroType sha : String)
    (planner : PlannerVersion) (days : Int) (runs : DetailsArray)
    (hruns : client.GetResultsForLastDays macroType sha planner days = (runs, none))
    (h : ∀ r ∈ runs, (client.GetExecutionMetricsSQL r.ExecUUID).2 = none) :
    getBenchmarkResultsLastXDays client macroType sha planner days =
      { value :=
          { Results := runs.map (fun r => r.Result),
            Metrics := runs.map (fun r => (client.GetExecutionMetricsSQL r.ExecUUID).1) },
        err := none,
        queries := Query.resultsLastDays macroType sha planner days ::
          runs.map (fun r => Query.metrics r.ExecUUID) } := by
  unfold getBenchmarkResultsLastXDays
  simp only [hruns]
  cases runs with
  | nil => simp [BenchmarkResults.zero]
  | cons r runs => simp [collectRuns_ok client (r :: runs) _ _ h, BenchmarkResults.zero]

/-- C7: when the store returns a list of runs and the metrics lookup fails for
the execution identifier of some run, `getBenchmarkResults` returns the error
of the first failing lookup together with the zero-valued BenchmarkResults: no
run is kept with a default metrics record and none of the rows accumulated
before the failure is returned; the lookups stop at the failure. -/
theorem getBenchmarkResults_metrics_error (client : SQLClient) (macroType gitSHA : String)
    (planner : PlannerVersion) (runs : DetailsArray)
    (hruns : client.getResultsForGitRefAndPlanner macroType gitSHA planner = (runs, none))
    (hfail : ∃ r ∈ runs, (client.GetExecutionMetricsSQL r.ExecUUID).2 ≠ none) :
    ∃ (pre : DetailsArray) (r : Details) (post : DetailsArray) (e : Error),
      runs = pre ++ r :: post ∧
      (∀ x ∈ pre, (client.GetExecutionMetricsSQL x.ExecUUID).2 = none) ∧
      (client.GetExecutionMetricsSQL r.ExecUUID).2 = some e ∧
      (getBenchmarkResults client macroType gitSHA planner).err = some e ∧
      (getBenchmarkResults client macroType gitSHA planner).value = BenchmarkResults.zero ∧
      (getBenchmarkResults client macroType gitSHA planner).value.Results = [] ∧
      (getBenchmarkResults client macroType gitSHA planner).value.Metrics = [] ∧
      (getBenchmarkResults client macroType gitSHA planner).queries =
        Query.results macroType gitSHA planner ::
          (pre ++ [r]).map (fun x => Query.metrics x.ExecUUID) := by
  obtain ⟨pre, r, post, hsplit, hpre, hr⟩ :=
    exists_first_split (fun r => (client.GetExecutionMetricsSQL r.ExecUUID).2 ≠ none) runs hfail
  have hpre' : ∀ x ∈ pre, (client.GetExecutionMetricsSQL x.ExecUUID).2 = none :=
    fun x hx => not_not.mp (hpre x hx)
  obtain ⟨e, he⟩ := Option.ne_none_iff_exists'.mp hr
  have hne : runs.length ≠ 0 := by simp [hsplit]
  have hout : getBenchmarkResults client macroType gitSHA planner =
      { value := BenchmarkResults.zero, err := some e,
        queries := Query.results macroType gitSHA planner ::
          (pre ++ [r]).map (fun x => Query.metrics x.ExecUUID) } := by
    unfold getBenchmarkResults
    simp only [hruns, if_neg hne]
    rw [hsplit, collectRuns_fail client pre r post e _ _ hpre' he]
    simp
  refine ⟨pre, r, post, e, hsplit, hpre', he, ?_⟩
  rw [hout]
  simp [BenchmarkResults.zero]

/-- Of the three runs of "oltp-set" in `sampleClient` the second has no
metrics: the error of its lookup comes back with the zero value, and the
lookup of the third run is never made. -/
theorem getBenchmarkResults_metrics_error_witness :
    (∃ (pre : DetailsArray) (r : Details) (post : DetailsArray) (e : Error),
      [sampleRun 1 "exec-1", sampleRun 3 "exec-lost", sampleRun 2 "exec-2"] = pre ++ r :: post ∧
      (∀ x ∈ pre, (sampleClient.GetExecutionMetricsSQL x.ExecUUID).2 = none) ∧
      (sampleClient.GetExecutionMetricsSQL r.ExecUUID).2 = some e ∧
      (getBenchmarkResults sampleClient "oltp-set" "f7304cd1" "Gen4").err = some e ∧
      (getBenchmarkResults sampleClient "oltp-set" "f7304cd1" "Gen4").value =
        BenchmarkResults.zero ∧
      (getBenchmarkResults sampleClient "oltp-set" "f7304cd1" "Gen4").value.Results = [] ∧
      (getBenchmarkResults sampleClient "oltp-set" "f7304cd1" "Gen4").value.Metrics = [] ∧
      (getBenchmarkResults sampleClient "oltp-set" "f7304cd1" "Gen4").queries =
        Query.results "oltp-set" "f7304cd1" "Gen4" ::
          (pre ++ [r]).map (fun x => Query.metrics x.ExecUUID)) ∧
    (getBenchmarkResults sampleClient "oltp-set" "f7304cd1" "Gen4").err =
      some "no metrics for execution" ∧
    (getBenchmarkResults sampleClient "oltp-set" "f7304cd1" "Gen4").queries =
      [Query.results "oltp-set" "f7304cd1" "Gen4", Query.metrics "exec-1",
        Query.metrics "exec-lost"] :=
  ⟨getBenchmarkResults_metrics_error sampleClient "oltp-set" "f7304cd1" "Gen4"
      [sampleRun 1 "exec-1", sampleRun 3 "exec-lost", sampleRun 2 "exec-2"] rfl
      ⟨sampleRun 3 "exec-lost", by decide, by decide⟩,
    by decide, by decide⟩

/-! ## The loops over the requested types -/

namespace GoMap

/-- Storing `f u` under every `u` of a list: the lookup of a listed key. -/
theorem lookup_foldl_set {V : Type} (f : String → V) (l : List String) (m : GoMap V) (k : String) :
    lookup (l.foldl (fun acc u => set acc u (f u)) m) k =
      if k ∈ l then some (f k) else lookup m k := by
  induction l generalizing m with
  | nil => simp
  | cons u l ih =>
    rw [List.foldl_cons, ih]
    by_cases hk : k ∈ l
    · simp [hk]
    · by_cases hu : u = k
      · subst hu; simp [hk, lookup_set_self]
      · have hu' : ¬ k = u := fun h => hu h.symm
        simp [hk, hu', lookup_set_ne _ _ _ _ hu]

/-- Storing under every key of a list: the keys afterwards. -/
theorem mem_keys_foldl_set {V : Type} (f : String → V) (l : List String) (m : GoMap V)
    (k : String) :
    k ∈ keys (l.foldl (fun acc u => set acc u (f u)) m) ↔ k ∈ keys m ∨ k ∈ l := by
  induction l generalizing m with
  | nil => simp
  | cons u l ih =>
    rw [List.foldl_cons, ih, mem_keys_set]
    simp only [List.mem_cons]
    tauto

end GoMap

/-- The loop of `Search` when the fetch of every type succeeds. -/
theorem searchLoop_ok {S : Type} (getSummary : List float64 → S × Option Error)
    (client : SQLClient) (sha : String) (planner : PlannerVersion) (types : List String)
    (results : GoMap (StatisticalSingleResult S)) (qs : List Query)
    (h : ∀ u ∈ types, (getBenchmarkResults client u sha planner).err = none) :
    searchLoop getSummary client sha planner types results qs =
      { value := some (types.foldl (fun acc u => GoMap.set acc u
          (summarize getSummary (getBenchmarkResults client u sha planner).value.asSlice)) results),
        err := none,
        queries := qs ++ types.flatMap (fun u => (getBenchmarkResults client u sha planner).queries) } := by
  induction types generalizing results qs with
  | nil => simp [searchLoop]
  | cons t types ih =>
    have ht := h t (List.mem_cons_self _ _)
    have hrest : ∀ u ∈ types, (getBenchmarkResults client u sha planner).err = none :=
      fun u hu => h u (List.mem_cons_of_mem _ hu)
    simp [searchLoop, ht, ih _ _ hrest]

/-- The loop of `Search` stops at the first type whose fetch fails. -/
theorem searchLoop_fail {S : Type} (getSummary : List float64 → S × Option Error)
    (client : SQLClient) (sha : String) (planner : PlannerVersion)
    (pre : List String) (t : String) (post : List String) (e : Error)
    (results : GoMap (StatisticalSingleResult S)) (qs : List Query)
    (hpre : ∀ u ∈ pre, (getBenchmarkResults client u sha planner).err = none)
    (ht : (getBenchmarkResults client t sha planner).err = some e) :
    searchLoop getSummary client sha planner (pre ++ t :: post) results qs =
      { value := none, err := some e,
        queries := qs ++ (pre ++ [t]).flatMap
          (fun u => (getBenchmarkResults client u sha planner).queries) } := by
  induction pre generalizing results qs with
  | nil => simp [searchLoop, ht]
  | cons a pre ih =>
    have ha := hpre a (List.mem_cons_self _ _)
    have hrest : ∀ u ∈ pre, (getBenchmarkResults client u sha planner).err = none :=
      fun u hu => hpre u (List.mem_cons_of_mem _ hu)
    simp [searchLoop, ha, ih _ _ hrest]

/-- The loop of `Compare` stops at the first fetch that fails, the baseline
side of a type being fetched before its candidate side. -/
theorem compareLoop_fail {R : Type} (performAnalysis : resultAsSlice → resultAsSlice → R)
    (client : SQLClient) (old new : String) (planner : PlannerVersion)
    (pre : List String) (t : String) (post : List String) (e : Error)
    (results : GoMap R) (qs : List Query)
    (hpre : ∀ u ∈ pre, (getBenchmarkResults client u old planner).err = none ∧
      (getBenchmarkResults client u new planner).err = none)
    (ht : (getBenchmarkResults client t old planner).err = some e ∨
      ((getBenchmarkResults client t old planner).err = none ∧
        (getBenchmarkResults client t new planner).err = some e)) :
    (compareLoop performAnalysis client old new planner (pre ++ t :: post) results qs).value = none ∧
    (compareLoop performAnalysis client old new planner (pre ++ t :: post) results qs).err = some e := by
  induction pre generalizing results qs with
  | nil =>
    rcases ht with ht | ⟨hl, hr⟩
    · simp [compareLoop, ht]
    · simp [compareLoop, hl, hr]
  | cons a pre ih =>
    have ha := hpre a (List.mem_cons_self _ _)
    have hrest : ∀ u ∈ pre, (getBenchmarkResults client u old planner).err = none ∧
        (getBenchmarkResults client u new planner).err = none :=
      fun u hu => hpre u (List.mem_cons_of_mem _ hu)
    simp only [List.cons_append, compareLoop, ha.1, ha.2]
    exact ih _ _ hrest

/-- The loop of `Compare` when every fetch succeeds. -/
theorem compareLoop_ok {R : Type} (performAnalysis : resultAsSlice → resultAsSlice → R)
    (client : SQLClient) (old new : String) (planner : PlannerVersion) (types : List String)
    (results : GoMap R) (qs : List Query)
    (h : ∀ u ∈ types, (getBenchmarkResults client u old planner).err = none ∧
      (getBenchmarkResults client u new planner).err = none) :
    compareLoop performAnalysis client old new planner types results qs =
      { value := some (types.foldl (fun acc u => GoMap.set acc u
          (performAnalysis (getBenchmarkResults client u old planner).value.asSlice
            (getBenchmarkResults client u new planner).value.asSlice)) results),
        err := none,
        queries := qs ++ types.flatMap (fun u =>
          (getBenchmarkResults client u old planner).queries ++
            (getBenchmarkResults client u new planner).queries) } := by
  induction types generalizing results qs with
  | nil => simp [compareLoop]
  | cons t types ih =>
    have ht := h t (List.mem_cons_self _ _)
    have hrest : ∀ u ∈ types, (getBenchmarkResults client u old planner).err = none ∧
        (getBenchmarkResults client u new planner).err = none :=
      fun u hu => h u (List.mem_cons_of_mem _ hu)
    simp [compareLoop, ht.1, ht.2, ih _ _ hrest]

/-- C5: if the fetch of some requested type fails, `Search` returns the nil
map together with the error of the first failing fetch in processing order,
unchanged; `Compare` does the same, the baseline fetch of a type coming before
its candidate fetch. No map of the types processed before is returned. -/
theorem fail_fast {S R : Type} (getSummary : List float64 → S × Option Error)
    (performAnalysis : resultAsSlice → resultAsSlice → R)
    (client : SQLClient) (sha old new : String) (types : List String) (planner : PlannerVersion) :
    ((∃ t ∈ types, (getBenchmarkResults client t sha planner).err ≠ none) →
      ∃ (pre : List String) (t : String) (post : List String) (e : Error),
        types = pre ++ t :: post ∧
        (∀ u ∈ pre, (getBenchmarkResults client u sha planner).err = none) ∧
        (getBenchmarkResults client t sha planner).err = some e ∧
        (Search getSummary client sha types planner).value = none ∧
        (Search getSummary client sha types planner).err = some e) ∧
    ((∃ t ∈ types, (getBenchmarkResults client t old planner).err ≠ none ∨
        (getBenchmarkResults client t new planner).err ≠ none) →
      ∃ (pre : List String) (t : String) (post : List String) (e : Error),
        types = pre ++ t :: post ∧
        (∀ u ∈ pre, (getBenchmarkResults client u old planner).err = none ∧
          (getBenchmarkResults client u new planner).err = none) ∧
        ((getBenchmarkResults client t old planner).err = some e ∨
          ((getBenchmarkResults client t old planner).err = none ∧
            (getBenchmarkResults client t new planner).err = some e)) ∧
        (Compare performAnalysis client old new types planner).value = none ∧
        (Compare performAnalysis client old new types planner).err = some e) := by
  constructor
  · intro h
    obtain ⟨pre, t, post, hsplit, hpre, ht⟩ :=
      exists_first_split (fun t => (getBenchmarkResults client t sha planner).err ≠ none) types h
    have hpre' : ∀ u ∈ pre, (getBenchmarkResults client u sha planner).err = none :=
      fun u hu => not_not.mp (hpre u hu)
    obtain ⟨e, he⟩ := Option.ne_none_iff_exists'.mp ht
    refine ⟨pre, t, post, e, hsplit, hpre', he, ?_, ?_⟩
    · unfold Search
      rw [hsplit, searchLoop_fail getSummary client sha planner pre t post e _ _ hpre' he]
    · unfold Search
      rw [hsplit, searchLoop_fail getSummary client sha planner pre t post e _ _ hpre' he]
  · intro h
    obtain ⟨pre, t, post, hsplit, hpre, ht⟩ :=
      exists_first_split (fun t => (getBenchmarkResults client t old planner).err ≠ none ∨
        (getBenchmarkResults client t new planner).err ≠ none) types h
    have hpre' : ∀ u ∈ pre, (getBenchmarkResults client u old planner).err = none ∧
        (getBenchmarkResults client u new planner).err = none := by
      intro u hu
      have := hpre u hu
      simp only [not_or, not_not] at this
      exact this
    have hcase : ∃ e, (getBenchmarkResults client t old planner).err = some e ∨
        ((getBenchmarkResults client t old planner).err = none ∧
          (getBenchmarkResults client t new planner).err = some e) := by
      cases hl : (getBenchmarkResults client t old planner).err with
      | some e => exact ⟨e, Or.inl rfl⟩
      | none =>
        rcases ht with ht | ht
        · exact absurd hl ht
        · obtain ⟨e, he⟩ := Option.ne_none_iff_exists'.mp ht
          exact ⟨e, Or.inr ⟨rfl, he⟩⟩
    obtain ⟨e, he⟩ := hcase
    have hloop := compareLoop_fail performAnalysis client old new planner pre t post e [] [] hpre' he
    refine ⟨pre, t, post, e, hsplit, hpre', he, ?_, ?_⟩
    · unfold Compare
      rw [hsplit]
      exact hloop.1
    · unfold Compare
      rw [hsplit]
      exact hloop.2

/-- With `sampleClient` the type "other" fails after "oltp" succeeded: both
entry points return the nil map and the store's error for "other". -/
theorem fail_fast_witness :
    (Search sampleSummary sampleClient "f7304cd1" ["oltp", "other", "tpcc"] "Gen4").value = none ∧
    (Search sampleSummary sampleClient "f7304cd1" ["oltp", "other", "tpcc"] "Gen4").err =
      some "unknown benchmark type" ∧
    (Compare sampleAnalysis sampleClient "f7304cd1" "0a1b2c3d" ["oltp", "other", "tpcc"] "Gen4").value
      = none ∧
    (Compare sampleAnalysis sampleClient "f7304cd1" "0a1b2c3d" ["oltp", "other", "tpcc"] "Gen4").err
      = some "unknown benchmark type" :=
  have h := fail_fast sampleSummary sampleAnalysis sampleClient "f7304cd1" "f7304cd1" "0a1b2c3d"
    ["oltp", "other", "tpcc"] "Gen4"
  match h.1 ⟨"other", by decide, by decide⟩, h.2 ⟨"other", by decide, by decide⟩ with
  | ⟨_, _, _, _, _, _, _, hv, _⟩, ⟨_, _, _, _, _, _, _, hv', _⟩ => ⟨hv, by decide, hv', by decide⟩

/-- The bundle that `Search` builds from the zero-valued BenchmarkResults. -/
theorem summarize_zero {S : Type} (getSummary : List float64 → S × Option Error) :
    summarize getSummary BenchmarkResults.zero.asSlice = emptyBundle getSummary := rfl

/-- C6: for a requested benchmark type for which the store returns zero runs
and no error, the fetch of that type returns no error and the zero value
after the single runs query, without any metrics lookup; and, in a request
none of whose other types fails, `Search` returns no error and a map holding
for that type the empty bundle: empty per-component maps and, for every
scalar summary, the summary of the empty sequence. -/
theorem Search_zero_runs {S : Type} (getSummary : List float64 → S × Option Error)
    (client : SQLClient) (sha : String) (types : List String) (planner : PlannerVersion)
    (t : String) (ht : t ∈ types)
    (hzero : client.getResultsForGitRefAndPlanner t sha planner = ([], none))
    (hothers : ∀ u ∈ types, u ≠ t → (getBenchmarkResults client u sha planner).err = none) :
    (getBenchmarkResults client t sha planner).err = none ∧
    (getBenchmarkResults client t sha planner).value = BenchmarkResults.zero ∧
    (getBenchmarkResults client t sha planner).queries = [Query.results t sha planner] ∧
    (Search getSummary client sha types planner).err = none ∧
    (∃ m, (Search getSummary client sha types planner).value = some m ∧
      GoMap.lookup m t = some (emptyBundle getSummary) ∧
      (emptyBundle getSummary).ComponentsCPUTime = [] ∧
      (emptyBundle getSummary).ComponentsMemStatsAllocBytes = []) ∧
    (Search getSummary client sha types planner).queries =
      types.flatMap (fun u =>
        if u = t then [Query.results t sha planner]
        else (getBenchmarkResults client u sha planner).queries) := by
  have hfetch := getBenchmarkResults_ok client t sha planner [] hzero (by simp)
  have hval : (getBenchmarkResults client t sha planner).value = BenchmarkResults.zero := by
    rw [hfetch]; rfl
  have hq : (getBenchmarkResults client t sha planner).queries = [Query.results t sha planner] := by
    rw [hfetch]; rfl
  have hall : ∀ u ∈ types, (getBenchmarkResults client u sha planner).err = none := by
    intro u hu
    by_cases h : u = t
    · subst h; rw [hfetch]
    · exact hothers u hu h
  have hfun : (fun u => (getBenchmarkResults client u sha planner).queries) =
      (fun u => if u = t then [Query.results t sha planner]
        else (getBenchmarkResults client u sha planner).queries) := by
    funext u
    by_cases h : u = t
    · subst h; simp [hq]
    · simp [h]
  refine ⟨hall t ht, hval, hq, ?_, ?_, ?_⟩
  · unfold Search
    rw [searchLoop_ok getSummary client sha planner types [] [] hall]
  · unfold Search
    rw [searchLoop_ok getSummary client sha planner types [] [] hall]
    refine ⟨_, rfl, ?_, rfl, rfl⟩
    rw [GoMap.lookup_foldl_set
      (fun u => summarize getSummary (getBenchmarkResults client u sha planner).value.asSlice),
      if_pos ht, hval, summarize_zero]
  · unfold Search
    rw [searchLoop_ok getSummary client sha planner types [] [] hall, hfun]
    simp

/-- With `sampleClient` the store has no run of "tpcc": a request for "oltp"
and "tpcc" returns no error, the empty bundle for "tpcc", and sends no metrics
lookup for it. -/
theorem Search_zero_runs_witness :
    (getBenchmarkResults sampleClient "tpcc" "f7304cd1" "Gen4").err = none ∧
    (getBenchmarkResults sampleClient "tpcc" "f7304cd1" "Gen4").value = BenchmarkResults.zero ∧
    (getBenchmarkResults sampleClient "tpcc" "f7304cd1" "Gen4").queries =
      [Query.results "tpcc" "f7304cd1" "Gen4"] ∧
    (Search sampleSummary sampleClient "f7304cd1" ["oltp", "tpcc"] "Gen4").err = none ∧
    (∃ m, (Search sampleSummary sampleClient "f7304cd1" ["oltp", "tpcc"] "Gen4").value = some m ∧
      GoMap.lookup m "tpcc" = some (emptyBundle sampleSummary) ∧
      (emptyBundle sampleSummary).ComponentsCPUTime = [] ∧
      (emptyBundle sampleSummary).ComponentsMemStatsAllocBytes = []) ∧
    (Search sampleSummary sampleClient "f7304cd1" ["oltp", "tpcc"] "Gen4").queries =
      ["oltp", "tpcc"].flatMap (fun u =>
        if u = "tpcc" then [Query.results "tpcc" "f7304cd1" "Gen4"]
        else (getBenchmarkResults sampleClient u "f7304cd1" "Gen4").queries) :=
  Search_zero_runs sampleSummary sampleClient "f7304cd1" ["oltp", "tpcc"] "Gen4" "tpcc"
    (by decide) rfl (by decide)

/-- C8: if, for every requested type, the store fetch and every metrics lookup
succeed, then for every summarizer `Search` returns the nil error and a map
whose keys are exactly the requested types: an error reported by `getSummary`
never fails the request and never removes a type from the map. -/
theorem Search_ignores_summary_errors {S : Type} (getSummary : List float64 → S × Option Error)
    (client : SQLClient) (sha : String) (types : List String) (planner : PlannerVersion)
    (hstore : ∀ t ∈ types, (client.getResultsForGitRefAndPlanner t sha planner).2 = none)
    (hmetrics : ∀ t ∈ types, ∀ r ∈ (client.getResultsForGitRefAndPlanner t sha planner).1,
      (client.GetExecutionMetricsSQL r.ExecUUID).2 = none) :
    (Search getSummary client sha types planner).err = none ∧
    ∃ m, (Search getSummary client sha types planner).value = some m ∧
      (∀ k, k ∈ GoMap.keys m ↔ k ∈ types) ∧
      ∀ t ∈ types, GoMap.lookup m t = some
        (summarize getSummary (getBenchmarkResults client t sha planner).value.asSlice) := by
  have hall : ∀ u ∈ types, (getBenchmarkResults client u sha planner).err = none := by
    intro u hu
    rw [getBenchmarkResults_ok client u sha planner
      (client.getResultsForGitRefAndPlanner u sha planner).1
      (Prod.ext rfl (hstore u hu)) (hmetrics u hu)]
  unfold Search
  rw [searchLoop_ok getSummary client sha planner types [] [] hall]
  refine ⟨rfl, _, rfl, ?_, ?_⟩
  · intro k
    rw [GoMap.mem_keys_foldl_set
      (fun u => summarize getSummary (getBenchmarkResults client u sha planner).value.asSlice)]
    simp [GoMap.keys]
  · intro t ht
    rw [GoMap.lookup_foldl_set
      (fun u => summarize getSummary (getBenchmarkResults client u sha planner).value.asSlice),
      if_pos ht]

/-- With `sampleSummary`, which reports insufficient data for every column of
"tpcc" (no run), the request for "oltp" and "tpcc" still returns both keys. -/
theorem Search_ignores_summary_errors_witness :
    (sampleSummary []).2 = some "insufficient data" ∧
    (Search sampleSummary sampleClient "f7304cd1" ["oltp", "tpcc"] "Gen4").err = none ∧
    ∃ m, (Search sampleSummary sampleClient "f7304cd1" ["oltp", "tpcc"] "Gen4").value = some m ∧
      (∀ k, k ∈ GoMap.keys m ↔ k ∈ ["oltp", "tpcc"]) ∧
      ∀ t ∈ ["oltp", "tpcc"], GoMap.lookup m t = some
        (summarize sampleSummary
          (getBenchmarkResults sampleClient t "f7304cd1" "Gen4").value.asSlice) :=
  ⟨by decide,
    Search_ignores_summary_errors sampleSummary sampleClient "f7304cd1" ["oltp", "tpcc"] "Gen4"
      (by decide) (by decide)⟩

/-- C4, as stated, fails: `asSlice` applied to two result rows and one metric
row returns a projection, with no error, whose standard columns have two
entries and whose metric columns have one. -/
theorem asSlice_misaligned_counterexample :
    misalignedResults.Results.length = 2 ∧ misalignedResults.Metrics.length = 1 ∧
    misalignedResults.asSlice.tps = [10, 20] ∧
    misalignedResults.asSlice.metrics.totalComponentsCPUTime = [3] ∧
    misalignedResults.asSlice.tps.length ≠
      misalignedResults.asSlice.metrics.totalComponentsCPUTime.length := by
  decide

/-- C4, amended: `asSlice` has no error result and does not compare the two
lists: the standard columns it returns have as many entries as `Results`, the
two total metric columns as many as `Metrics`, whatever the two lengths; the
lists of a value returned by `getBenchmarkResults` always have the same
length. -/
theorem asSlice_lengths (br : BenchmarkResults) :
    br.asSlice.qps.total.length = br.Results.length ∧
    br.asSlice.qps.reads.length = br.Results.length ∧
    br.asSlice.qps.writes.length = br.Results.length ∧
    br.asSlice.qps.other.length = br.Results.length ∧
    br.asSlice.tps.length = br.Results.length ∧
    br.asSlice.latency.length = br.Results.length ∧
    br.asSlice.errors.length = br.Results.length ∧
    br.asSlice.reconnects.length = br.Results.length ∧
    br.asSlice.time.length = br.Results.length ∧
    br.asSlice.threads.length = br.Results.length ∧
    br.asSlice.metrics = metricsToSlice br.Metrics ∧
    br.asSlice.metrics.totalComponentsCPUTime.length = br.Metrics.length ∧
    br.asSlice.metrics.totalComponentsMemStatsAllocBytes.length = br.Metrics.length ∧
    ∀ (client : SQLClient) (macroType gitSHA : String) (planner : PlannerVersion),
      (getBenchmarkResults client macroType gitSHA planner).value.Results.length =
        (getBenchmarkResults client macroType gitSHA planner).value.Metrics.length := by
  unfold BenchmarkResults.asSlice
  simp only [resultsArrayToSlice_eq_map, metricsToSlice, foldl_metricsToSliceStep]
  simp [metricsAsSlice.zero, getBenchmarkResults_same_length]

end macrobench
